import Mathlib

/-!
Shallow embedding of `xcube_geodb/core/iterator.py` (`GeoDBIterator`):
a paginated iterator that repeatedly calls a page-fetching function with
injected `offset` / `limit` / `iterate` keyword arguments, maintains a
page cursor bounded by a stop page, and terminates when a fetched page
is empty.

Python integers are modelled as `Int`.  The `math.inf` default of the
stop page is modelled as `Option Int` with `none` standing for the
unbounded sentinel (`page > math.inf` is always false).  The keyword
dictionary that the iterator rewrites in place is modelled as a record
holding the three keys the iterator writes (`offset`, `limit`,
`iterate`) next to an opaque `base` component for all caller-supplied
entries the iterator never touches.  The remote call
`getattr(self._geodb, self._func)(**kwargs)` is modelled as a function
from the keyword record to `Except ε (List ρ)`: `Except.error`
corresponds to a raised remote error, and the row list to the returned
frame, whose `len(res.index)` is the list length.
-/

/-- The keyword-argument dictionary handed to the page-fetching
function.  `base` collects the caller-supplied entries the iterator
never writes; `offset`, `limit` and `iterate` are the three keys the
iterator assigns on every step (`none` = key absent). -/
structure CallKwargs (α : Type) where
  base : α
  offset : Option Int
  limit : Option Int
  iterate : Option Bool
deriving Repr, DecidableEq

/-- The mutable state of a `GeoDBIterator` instance: the cursor
`page` (`self._page`), the three tunables, and the keyword dictionary
(`self._kwargs["kwargs"]`). -/
structure IterState (α : Type) where
  page : Int
  start_page : Int
  stop_page : Option Int
  page_size : Int
  kwargs : CallKwargs α
deriving Repr, DecidableEq

/-- Outcome of one `__next__` call: `stop` is `raise StopIteration`,
`yield` is `return res`, `error` is an exception propagating out of the
fetch call. -/
inductive StepResult (ε ρ : Type) where
  | stop : StepResult ε ρ
  | yield : List ρ → StepResult ε ρ
  | error : ε → StepResult ε ρ
deriving Repr, DecidableEq

/-- One `__next__` call, observed: the state after the call, the
argument record passed to the fetch function together with the cursor
value the step ran at (`none` when the bound check stopped before any
fetch), and the outcome. -/
structure StepOut (α ε ρ : Type) where
  state : IterState α
  request : Option (Int × CallKwargs α)
  result : StepResult ε ρ
deriving Repr, DecidableEq

namespace GeoDBIterator

/-- Constructor `GeoDBIterator.__init__`.  `self._page = start_page or 0` and
`self._page_size = page_size or 10`: the Python `or` takes the right
operand exactly when the left one is falsy, which for an `int` means
equal to `0`. -/
def init (page_size : Int) (start_page : Int) (stop_page : Option Int)
    (kwargs : CallKwargs α) : IterState α :=
  { page := if start_page = 0 then 0 else start_page
    start_page := start_page
    stop_page := stop_page
    page_size := if page_size = 0 then 10 else page_size
    kwargs := kwargs }

/-- Setter of the `start_page` property: `self._start_page = value`. -/
def set_start_page (s : IterState α) (v : Int) : IterState α :=
  { s with start_page := v }

/-- Setter of the `stop_page` property.  The source assigns
`self._start_page = value` in this setter. -/
def set_stop_page (s : IterState α) (v : Int) : IterState α :=
  { s with start_page := v }

/-- Setter of the `page_size` property: `self._page_size = value`. -/
def set_page_size (s : IterState α) (v : Int) : IterState α :=
  { s with page_size := v }

/-- Method `GeoDBIterator.__iter__`: `self._page = self._start_page`. -/
def iter (s : IterState α) : IterState α :=
  { s with page := s.start_page }

/-- The test `page > self._stop_page` where `self._stop_page` may be
the `math.inf` sentinel (here `none`), in which case the comparison is
always false. -/
def stopExceeded (page : Int) (stop : Option Int) : Bool :=
  match stop with
  | none => false
  | some t => page > t

/-- The keyword record after the three assignments
`kwargs["offset"] = page * page_size`, `kwargs["limit"] = page_size`,
`kwargs["iterate"] = False`, where `page` is the cursor value saved at
the top of `__next__`. -/
def injKwargs (s : IterState α) : CallKwargs α :=
  { base := s.kwargs.base
    offset := some (s.page * s.page_size)
    limit := some s.page_size
    iterate := some false }

/-- Method `GeoDBIterator.__next__`: save the cursor, stop if it exceeds the
stop page, increment the cursor, write `offset` / `limit` / `iterate`
into the keyword dictionary, call the fetch function, and either
propagate its exception, yield its nonempty result, or stop on an empty
result. -/
def next (fetch : CallKwargs α → Except ε (List ρ)) (s : IterState α) :
    StepOut α ε ρ :=
  let page := s.page
  if stopExceeded page s.stop_page then
    ⟨s, none, StepResult.stop⟩
  else
    let s1 : IterState α := { s with page := s.page + 1 }
    let kw : CallKwargs α :=
      { base := s1.kwargs.base
        offset := some (page * s1.page_size)
        limit := some s1.page_size
        iterate := some false }
    let s2 : IterState α := { s1 with kwargs := kw }
    match fetch kw with
    | Except.error e => ⟨s2, some (page, kw), StepResult.error e⟩
    | Except.ok res =>
      if res.length > 0 then ⟨s2, some (page, kw), StepResult.yield res⟩
      else ⟨s2, some (page, kw), StepResult.stop⟩

/-- Everything one iteration pass produces: the fetch requests in
order (each tagged with the cursor value it was issued at), the pages
yielded to the consumer, the exception that ended the pass (if any),
and the iterator state left behind. -/
structure Trace (α ε ρ : Type) where
  requests : List (Int × CallKwargs α)
  yields : List (List ρ)
  err : Option ε
  final : IterState α
deriving Repr, DecidableEq

/-- Driving the iterator: repeatedly call `next` until it stops or
raises, collecting requests and yielded pages.  `fuel` bounds the
number of consumer pulls (running out of fuel is the consumer ceasing
to pull, which is always safe). -/
def run (fetch : CallKwargs α → Except ε (List ρ)) :
    Nat → IterState α → Trace α ε ρ
  | 0, s => ⟨[], [], none, s⟩
  | fuel + 1, s =>
    match next fetch s with
    | ⟨s1, req, StepResult.stop⟩ => ⟨req.toList, [], none, s1⟩
    | ⟨s1, req, StepResult.error e⟩ => ⟨req.toList, [], some e, s1⟩
    | ⟨s1, req, StepResult.yield rows⟩ =>
      let t := run fetch fuel s1
      ⟨req.toList ++ t.requests, rows :: t.yields, t.err, t.final⟩

/-- A full iteration pass: `__iter__` (cursor reset to the start page)
followed by the pull loop. -/
def iterate (fetch : CallKwargs α → Except ε (List ρ)) (fuel : Nat)
    (s : IterState α) : Trace α ε ρ :=
  run fetch fuel (iter s)

/-- The state `next` leaves behind when a fetch is attempted. -/
def stepState (s : IterState α) : IterState α :=
  { s with page := s.page + 1, kwargs := injKwargs s }

/-- A concrete fetch function used in examples: it succeeds with one
row when the `offset` keyword is 0 and raises on every other call. -/
def fetchOkAtZero : CallKwargs Unit → Except Unit (List Unit) :=
  fun kw2 => if kw2.offset.getD 1 = 0 then Except.ok [()] else Except.error ()

/-- A concrete mid-pass iterator state used in examples: cursor at
page 1 with page size 3, unbounded stop page, after one step already
rewrote the keyword dictionary. -/
def midPassState : IterState Unit :=
  ⟨1, 0, none, 3, ⟨(), some 0, some 3, some false⟩⟩

lemma next_stop {fetch : CallKwargs α → Except ε (List ρ)} {s : IterState α}
    (h : stopExceeded s.page s.stop_page = true) :
    next fetch s = ⟨s, none, StepResult.stop⟩ := by
  simp [next, h]

lemma next_error {α ε ρ : Type} {fetch : CallKwargs α → Except ε (List ρ)}
    {s : IterState α} {e : ε} (h : stopExceeded s.page s.stop_page = false)
    (hf : fetch (injKwargs s) = Except.error e) :
    next fetch s = ⟨stepState s, some (s.page, injKwargs s), StepResult.error e⟩ := by
  simp only [next, h, Bool.false_eq_true, if_false, injKwargs, stepState] at hf ⊢
  rw [hf]

lemma next_yield {α ε ρ : Type} {fetch : CallKwargs α → Except ε (List ρ)}
    {s : IterState α} {res : List ρ} (h : stopExceeded s.page s.stop_page = false)
    (hf : fetch (injKwargs s) = Except.ok res) (hres : res.length > 0) :
    next fetch s = ⟨stepState s, some (s.page, injKwargs s), StepResult.yield res⟩ := by
  simp only [next, h, Bool.false_eq_true, if_false, injKwargs, stepState] at hf ⊢
  rw [hf]
  simp [hres]

lemma next_empty {fetch : CallKwargs α → Except ε (List ρ)} {s : IterState α}
    (h : stopExceeded s.page s.stop_page = false)
    (hf : fetch (injKwargs s) = Except.ok []) :
    next fetch s = ⟨stepState s, some (s.page, injKwargs s), StepResult.stop⟩ := by
  simp only [next, h, Bool.false_eq_true, if_false, injKwargs, stepState] at hf ⊢
  rw [hf]
  simp

lemma run_zero {fetch : CallKwargs α → Except ε (List ρ)} {s : IterState α} :
    run fetch 0 s = ⟨[], [], none, s⟩ := rfl

lemma run_succ_stop {fetch : CallKwargs α → Except ε (List ρ)} {s : IterState α}
    {fuel : Nat} {s1 : IterState α} {req : Option (Int × CallKwargs α)}
    (h : next fetch s = ⟨s1, req, StepResult.stop⟩) :
    run fetch (fuel + 1) s = ⟨req.toList, [], none, s1⟩ := by
  rw [run, h]

lemma run_succ_error {fetch : CallKwargs α → Except ε (List ρ)} {s : IterState α}
    {fuel : Nat} {s1 : IterState α} {req : Option (Int × CallKwargs α)} {e : ε}
    (h : next fetch s = ⟨s1, req, StepResult.error e⟩) :
    run fetch (fuel + 1) s = ⟨req.toList, [], some e, s1⟩ := by
  rw [run, h]

lemma stepState_start_page (s : IterState α) :
    (stepState s).start_page = s.start_page := rfl

lemma stepState_stop_page (s : IterState α) :
    (stepState s).stop_page = s.stop_page := rfl

lemma stepState_page_size (s : IterState α) :
    (stepState s).page_size = s.page_size := rfl

lemma stepState_base (s : IterState α) :
    (stepState s).kwargs.base = s.kwargs.base := rfl

lemma run_succ_yield {fetch : CallKwargs α → Except ε (List ρ)} {s : IterState α}
    {fuel : Nat} {s1 : IterState α} {req : Option (Int × CallKwargs α)}
    {rows : List ρ}
    (h : next fetch s = ⟨s1, req, StepResult.yield rows⟩) :
    run fetch (fuel + 1) s =
      ⟨req.toList ++ (run fetch fuel s1).requests,
        rows :: (run fetch fuel s1).yields,
        (run fetch fuel s1).err, (run fetch fuel s1).final⟩ := by
  rw [run, h]

/-- A pull loop never changes the tunables or the caller-supplied part
of the keyword dictionary. -/
lemma run_final_tunables (fetch : CallKwargs α → Except ε (List ρ))
    (fuel : Nat) (s : IterState α) :
    (run fetch fuel s).final.start_page = s.start_page ∧
    (run fetch fuel s).final.stop_page = s.stop_page ∧
    (run fetch fuel s).final.page_size = s.page_size ∧
    (run fetch fuel s).final.kwargs.base = s.kwargs.base := by
  induction fuel generalizing s with
  | zero => simp [run_zero]
  | succ fuel ih =>
    cases h : stopExceeded s.page s.stop_page with
    | true => simp [run_succ_stop (next_stop h)]
    | false =>
      cases hf : fetch (injKwargs s) with
      | error e =>
        simp [run_succ_error (next_error h hf), stepState, injKwargs]
      | ok res =>
        cases res with
        | nil => simp [run_succ_stop (next_empty h hf), stepState, injKwargs]
        | cons r rs =>
          rw [run_succ_yield (next_yield h hf (by simp))]
          have := ih (stepState s)
          simpa [stepState, injKwargs] using this

/-- Every fetch request of a pull loop carries the injected arguments:
`offset` is the issuing cursor value times the page size, `limit` is
the page size, `iterate` is forced to `False`, the caller-supplied
entries are passed through, and the issuing cursor never exceeds the
stop page. -/
lemma run_requests_spec (fetch : CallKwargs α → Except ε (List ρ))
    (fuel : Nat) (s : IterState α) :
    ∀ p kw, (p, kw) ∈ (run fetch fuel s).requests →
      kw.offset = some (p * s.page_size) ∧ kw.limit = some s.page_size ∧
      kw.iterate = some false ∧ kw.base = s.kwargs.base ∧
      stopExceeded p s.stop_page = false := by
  induction fuel generalizing s with
  | zero => simp [run_zero]
  | succ fuel ih =>
    intro p kw hmem
    cases h : stopExceeded s.page s.stop_page with
    | true => simp [run_succ_stop (next_stop h)] at hmem
    | false =>
      cases hf : fetch (injKwargs s) with
      | error e =>
        rw [run_succ_error (next_error h hf)] at hmem
        simp at hmem
        obtain ⟨hp, hkw⟩ := hmem
        subst hp
        subst hkw
        simpa [injKwargs] using h
      | ok res =>
        cases res with
        | nil =>
          rw [run_succ_stop (next_empty h hf)] at hmem
          simp at hmem
          obtain ⟨hp, hkw⟩ := hmem
          subst hp
          subst hkw
          simpa [injKwargs] using h
        | cons r rs =>
          rw [run_succ_yield (next_yield h hf (by simp))] at hmem
          simp at hmem
          rcases hmem with ⟨hp, hkw⟩ | hmem
          · subst hp
            subst hkw
            simpa [injKwargs] using h
          · have := ih (stepState s) p kw hmem
            simpa [stepState, injKwargs] using this

/-- No yielded page is empty. -/
lemma run_yields_nonempty (fetch : CallKwargs α → Except ε (List ρ))
    (fuel : Nat) (s : IterState α) :
    ∀ rows, rows ∈ (run fetch fuel s).yields → rows ≠ [] := by
  induction fuel generalizing s with
  | zero => simp [run_zero]
  | succ fuel ih =>
    intro rows hmem
    cases h : stopExceeded s.page s.stop_page with
    | true => simp [run_succ_stop (next_stop h)] at hmem
    | false =>
      cases hf : fetch (injKwargs s) with
      | error e => simp [run_succ_error (next_error h hf)] at hmem
      | ok res =>
        cases res with
        | nil => simp [run_succ_stop (next_empty h hf)] at hmem
        | cons r rs =>
          rw [run_succ_yield (next_yield h hf (by simp))] at hmem
          simp at hmem
          rcases hmem with hmem | hmem
          · simp [hmem]
          · exact ih (stepState s) rows hmem

/-- With a finite stop page `T`, a pull loop starting at cursor `p`
yields at most `T + 1 - p` pages. -/
lemma run_yields_length_le (fetch : CallKwargs α → Except ε (List ρ))
    (fuel : Nat) (s : IterState α) (T : Int) (hT : s.stop_page = some T) :
    (run fetch fuel s).yields.length ≤ (T + 1 - s.page).toNat := by
  induction fuel generalizing s with
  | zero => simp [run_zero]
  | succ fuel ih =>
    cases h : stopExceeded s.page s.stop_page with
    | true => simp [run_succ_stop (next_stop h)]
    | false =>
      have hle : s.page ≤ T := by
        rw [hT] at h
        simpa [stopExceeded] using h
      cases hf : fetch (injKwargs s) with
      | error e => simp [run_succ_error (next_error h hf)]
      | ok res =>
        cases res with
        | nil => simp [run_succ_stop (next_empty h hf)]
        | cons r rs =>
          rw [run_succ_yield (next_yield h hf (by simp))]
          have hrec := ih (stepState s) (by simpa [stepState_stop_page] using hT)
          simp only [List.length_cons]
          have hpage : (stepState s).page = s.page + 1 := rfl
          rw [hpage] at hrec
          omega

/-- If the fetch function honours its `limit` argument, every yielded
page has at most `page_size` rows. -/
lemma run_yields_row_bound (fetch : CallKwargs α → Except ε (List ρ))
    (fuel : Nat) (s : IterState α)
    (hfetch : ∀ kw res, fetch kw = Except.ok res →
      (res.length : Int) ≤ kw.limit.getD 0) :
    ∀ rows, rows ∈ (run fetch fuel s).yields →
      (rows.length : Int) ≤ s.page_size := by
  induction fuel generalizing s with
  | zero => simp [run_zero]
  | succ fuel ih =>
    intro rows hmem
    cases h : stopExceeded s.page s.stop_page with
    | true => simp [run_succ_stop (next_stop h)] at hmem
    | false =>
      cases hf : fetch (injKwargs s) with
      | error e => simp [run_succ_error (next_error h hf)] at hmem
      | ok res =>
        cases res with
        | nil => simp [run_succ_stop (next_empty h hf)] at hmem
        | cons r rs =>
          rw [run_succ_yield (next_yield h hf (by simp))] at hmem
          simp at hmem
          rcases hmem with hmem | hmem
          · have := hfetch (injKwargs s) (r :: rs) hf
            simp [injKwargs] at this
            subst hmem
            simpa using this
          · have := ih (stepState s) rows hmem
            simpa [stepState_page_size] using this

/-- The cursor is incremented by exactly one on every step that
attempts a fetch, is untouched by a bound-terminated step, and hence
never decreases across a pull loop. -/
lemma run_final_page_mono (fetch : CallKwargs α → Except ε (List ρ))
    (fuel : Nat) (s : IterState α) :
    s.page ≤ (run fetch fuel s).final.page := by
  induction fuel generalizing s with
  | zero => simp [run_zero]
  | succ fuel ih =>
    cases h : stopExceeded s.page s.stop_page with
    | true => simp [run_succ_stop (next_stop h)]
    | false =>
      cases hf : fetch (injKwargs s) with
      | error e =>
        rw [run_succ_error (next_error h hf)]
        show s.page ≤ (stepState s).page
        simp only [stepState]
        omega
      | ok res =>
        cases res with
        | nil =>
          rw [run_succ_stop (next_empty h hf)]
          show s.page ≤ (stepState s).page
          simp only [stepState]
          omega
        | cons r rs =>
          rw [run_succ_yield (next_yield h hf (by simp))]
          show s.page ≤ (run fetch fuel (stepState s)).final.page
          have h2 := ih (stepState s)
          have h1 : (stepState s).page = s.page + 1 := rfl
          omega

/-- The observable behaviour of a pull loop — requests, yields and the
propagated error — depends only on the cursor, the stop page, the page
size and the caller-supplied keyword entries, not on the leftover
`offset` / `limit` / `iterate` values in the dictionary or the stored
start page. -/
lemma run_congr (fetch : CallKwargs α → Except ε (List ρ)) (fuel : Nat)
    (s₁ s₂ : IterState α) (hpage : s₁.page = s₂.page)
    (hstop : s₁.stop_page = s₂.stop_page)
    (hsize : s₁.page_size = s₂.page_size)
    (hbase : s₁.kwargs.base = s₂.kwargs.base) :
    (run fetch fuel s₁).requests = (run fetch fuel s₂).requests ∧
    (run fetch fuel s₁).yields = (run fetch fuel s₂).yields ∧
    (run fetch fuel s₁).err = (run fetch fuel s₂).err := by
  induction fuel generalizing s₁ s₂ with
  | zero => simp [run_zero]
  | succ fuel ih =>
    have hkw : injKwargs s₁ = injKwargs s₂ := by
      simp [injKwargs, hpage, hsize, hbase]
    cases h : stopExceeded s₂.page s₂.stop_page with
    | true =>
      have h₁ : stopExceeded s₁.page s₁.stop_page = true := by
        rw [hpage, hstop]; exact h
      simp [run_succ_stop (next_stop h), run_succ_stop (next_stop h₁)]
    | false =>
      have h₁ : stopExceeded s₁.page s₁.stop_page = false := by
        rw [hpage, hstop]; exact h
      have hstep : (stepState s₁).page = (stepState s₂).page ∧
          (stepState s₁).stop_page = (stepState s₂).stop_page ∧
          (stepState s₁).page_size = (stepState s₂).page_size ∧
          (stepState s₁).kwargs.base = (stepState s₂).kwargs.base := by
        simp [stepState, injKwargs, hpage, hstop, hsize, hbase]
      cases hf : fetch (injKwargs s₂) with
      | error e =>
        rw [run_succ_error (next_error h hf),
          run_succ_error (next_error h₁ (hkw ▸ hf))]
        simp [hpage, hkw]
      | ok res =>
        cases res with
        | nil =>
          rw [run_succ_stop (next_empty h hf),
            run_succ_stop (next_empty h₁ (hkw ▸ hf))]
          simp [hpage, hkw]
        | cons r rs =>
          rw [run_succ_yield (next_yield h hf (by simp)),
            run_succ_yield (next_yield h₁ (hkw ▸ hf) (by simp))]
          have := ih (stepState s₁) (stepState s₂) hstep.1 hstep.2.1
            hstep.2.2.1 hstep.2.2.2
          simp [hpage, hkw, this.1, this.2.1, this.2.2]

/-- With a fetch function that always returns one row, a pull loop
with a finite stop page `T`, cursor `p ≤ T + 1` and enough fuel yields
exactly `T + 1 - p` pages: every page index up to and including the
stop page is produced. -/
lemma run_yields_length_exact {α ε ρ : Type} (r : ρ) (fuel : Nat) (s : IterState α)
    (T : Int) (hT : s.stop_page = some T) (hp : s.page ≤ T + 1)
    (hfuel : (T + 1 - s.page).toNat + 1 ≤ fuel) :
    (run (fun _ => Except.ok [r] : CallKwargs α → Except ε (List ρ))
      fuel s).yields.length = (T + 1 - s.page).toNat := by
  induction fuel generalizing s with
  | zero => omega
  | succ fuel ih =>
    cases h : stopExceeded s.page s.stop_page with
    | true =>
      have : T < s.page := by
        rw [hT] at h
        simpa [stopExceeded] using h
      simp [run_succ_stop (next_stop h)]
      omega
    | false =>
      have hle : s.page ≤ T := by
        rw [hT] at h
        simpa [stopExceeded] using h
      rw [run_succ_yield (next_yield h rfl (by simp))]
      have hpage : (stepState s).page = s.page + 1 := rfl
      have hrec := ih (stepState s) (by simpa [stepState_stop_page] using hT)
        (by omega) (by rw [hpage]; omega)
      simp only [List.length_cons]
      rw [hrec, hpage]
      omega

lemma init_start_page (ps S : Int) (t : Option Int) (kw : CallKwargs α) :
    (init ps S t kw).start_page = S := rfl

lemma init_stop_page (ps S : Int) (t : Option Int) (kw : CallKwargs α) :
    (init ps S t kw).stop_page = t := rfl

lemma init_base (ps S : Int) (t : Option Int) (kw : CallKwargs α) :
    (init ps S t kw).kwargs.base = kw.base := rfl

lemma init_page_size_of_ne (ps S : Int) (t : Option Int) (kw : CallKwargs α)
    (h : ps ≠ 0) : (init ps S t kw).page_size = ps := by
  simp [init, h]

lemma iter_page (s : IterState α) : (iter s).page = s.start_page := rfl

lemma iter_start_page (s : IterState α) :
    (iter s).start_page = s.start_page := rfl

lemma iter_stop_page (s : IterState α) : (iter s).stop_page = s.stop_page := rfl

lemma iter_page_size (s : IterState α) : (iter s).page_size = s.page_size := rfl

lemma iter_base (s : IterState α) : (iter s).kwargs.base = s.kwargs.base := rfl

end GeoDBIterator

open GeoDBIterator

/-- C10: assigning `v` through the `stop_page` setter leaves the stored
stop page unchanged (the getter still returns the construction-time
value) and instead overwrites the stored start page with `v`, so the
next pass — whose cursor is reset to the start page on `__iter__` —
begins at page `v` while still stopping at the original bound; the
`start_page` and `page_size` setters write to their own fields. -/
theorem claim_C10_stop_page_setter_writes_start_page {α : Type}
    (s : IterState α) (v w : Int) :
    (set_stop_page s v).stop_page = s.stop_page ∧
    (set_stop_page s v).start_page = v ∧
    (set_stop_page s v).page_size = s.page_size ∧
    (set_stop_page s v).kwargs = s.kwargs ∧
    (iter (set_stop_page s v)).page = v ∧
    (iter (set_stop_page s v)).stop_page = s.stop_page ∧
    (set_start_page s w).start_page = w ∧
    (set_start_page s w).stop_page = s.stop_page ∧
    (set_start_page s w).page_size = s.page_size ∧
    (set_page_size s w).page_size = w ∧
    (set_page_size s w).start_page = s.start_page ∧
    (set_page_size s w).stop_page = s.stop_page :=
  ⟨rfl, rfl, rfl, rfl, rfl, rfl, rfl, rfl, rfl, rfl, rfl, rfl⟩

/-- C6 fails on the code: constructing with stop page 5 and then
assigning 1 through the `stop_page` setter does not make the next pass
stop after page 1 (which would give 2 pages, indices 0 and 1).
Instead the stored stop page stays 5, the start page becomes 1, and a
pass against an always-one-row fetch function yields 5 pages (indices
1 through 5). -/
theorem claim_C6_stop_page_setter_bug :
    (set_stop_page (init 1 0 (some 5) ⟨(), none, none, none⟩) 1).stop_page
        = some 5 ∧
    (set_stop_page (init 1 0 (some 5) ⟨(), none, none, none⟩) 1).start_page
        = 1 ∧
    (iterate (fun _ => Except.ok [()] : CallKwargs Unit → Except Unit (List Unit))
        10 (set_stop_page (init 1 0 (some 5) ⟨(), none, none, none⟩) 1)).yields.length
        = 5 ∧
    (5 : Nat) ≠ 2 := by
  decide

/-- C7 fails on the code for negative page sizes: `page_size or 10`
only replaces a falsy (zero) value, so constructing with page size
`-1` stores `-1`, not the default 10 the claim predicts for every
non-positive value. -/
theorem claim_C7_counterexample :
    (init (-1) 0 none (⟨(), none, none, none⟩ : CallKwargs Unit)).page_size
        = -1 ∧
    ((-1 : Int) ≠ 10) := by
  decide

/-- C7 amended: at construction a page size of zero (the only falsy
`int`) is replaced by the default 10, and every nonzero page size
value — positive or negative — is used unchanged. -/
theorem claim_C7_page_size_default {α : Type} (ps S : Int) (t : Option Int)
    (kw : CallKwargs α) :
    (init 0 S t kw).page_size = 10 ∧
    (ps = 0 → (init ps S t kw).page_size = 10) ∧
    (ps ≠ 0 → (init ps S t kw).page_size = ps) := by
  refine ⟨rfl, ?_, ?_⟩
  · intro h
    simp [init, h]
  · intro h
    simp [init, h]

/-- Witness for C7: at page size 5 the branch hypotheses are concrete
and the stored page size is 5. -/
theorem claim_C7_page_size_default_witness :
    (init 0 0 none (⟨(), none, none, none⟩ : CallKwargs Unit)).page_size = 10 ∧
    ((5 : Int) = 0 →
      (init 5 0 none (⟨(), none, none, none⟩ : CallKwargs Unit)).page_size = 10) ∧
    ((5 : Int) ≠ 0 →
      (init 5 0 none (⟨(), none, none, none⟩ : CallKwargs Unit)).page_size = 5) :=
  claim_C7_page_size_default 5 0 none ⟨(), none, none, none⟩

/-- C1: every fetch request issued during an iteration pass, at cursor
value `p`, carries exactly `offset = p * page_size` and
`limit = page_size` in the forwarded keyword arguments, forces the
caller-supplied `iterate` flag to `False`, and passes the remaining
caller-supplied entries through unchanged. -/
theorem claim_C1_offset_limit_injection {α ε ρ : Type}
    (fetch : CallKwargs α → Except ε (List ρ)) (fuel : Nat)
    (s : IterState α) (p : Int) (kw : CallKwargs α)
    (hmem : (p, kw) ∈ (iterate fetch fuel s).requests) :
    kw.offset = some (p * s.page_size) ∧
    kw.limit = some s.page_size ∧
    kw.iterate = some false ∧
    kw.base = s.kwargs.base := by
  have h := run_requests_spec fetch fuel (iter s) p kw hmem
  exact ⟨h.1, h.2.1, h.2.2.1, h.2.2.2.1⟩

/-- Witness for C1: a pass with page size 2 and stop page 0 issues the
request `(0, {offset := 0 * 2, limit := 2, iterate := false})`. -/
theorem claim_C1_offset_limit_injection_witness :
    ((0 : Int), (⟨(), some 0, some 2, some false⟩ : CallKwargs Unit)) ∈
      (iterate (fun _ => Except.ok [()] : CallKwargs Unit → Except Unit (List Unit))
        3 (init 2 0 (some 0) ⟨(), none, none, none⟩)).requests ∧
    ((⟨(), some 0, some 2, some false⟩ : CallKwargs Unit).offset =
        some (0 * (init 2 0 (some 0)
          (⟨(), none, none, none⟩ : CallKwargs Unit)).page_size) ∧
      (⟨(), some 0, some 2, some false⟩ : CallKwargs Unit).limit =
        some (init 2 0 (some 0)
          (⟨(), none, none, none⟩ : CallKwargs Unit)).page_size ∧
      (⟨(), some 0, some 2, some false⟩ : CallKwargs Unit).iterate = some false ∧
      (⟨(), some 0, some 2, some false⟩ : CallKwargs Unit).base =
        (init 2 0 (some 0)
          (⟨(), none, none, none⟩ : CallKwargs Unit)).kwargs.base) :=
  ⟨by decide,
    claim_C1_offset_limit_injection
      (fun _ => Except.ok [()] : CallKwargs Unit → Except Unit (List Unit)) 3
      (init 2 0 (some 0) ⟨(), none, none, none⟩)
      0 ⟨(), some 0, some 2, some false⟩ (by decide)⟩

/-- C5: entering the iteration protocol resets the cursor to the
stored start page, and re-running iteration on the state a completed
pass left behind (tunables unchanged) produces exactly the same
requests, the same yielded pages and the same terminal error as
running that pass on the original instance: nothing is cached across
passes. -/
theorem claim_C5_reset_and_repeat {α ε ρ : Type}
    (fetch : CallKwargs α → Except ε (List ρ)) (fuel fuel2 : Nat)
    (s : IterState α) :
    (iter s).page = s.start_page ∧
    (iterate fetch fuel2 ((iterate fetch fuel s).final)).requests =
      (iterate fetch fuel2 s).requests ∧
    (iterate fetch fuel2 ((iterate fetch fuel s).final)).yields =
      (iterate fetch fuel2 s).yields ∧
    (iterate fetch fuel2 ((iterate fetch fuel s).final)).err =
      (iterate fetch fuel2 s).err := by
  refine ⟨rfl, ?_⟩
  have hpres := run_final_tunables fetch fuel (iter s)
  have hcongr := run_congr fetch fuel2
    (iter ((iterate fetch fuel s).final)) (iter s)
    (by rw [iter_page, iter_page]; exact hpres.1)
    (by rw [iter_stop_page, iter_stop_page]; exact hpres.2.1)
    (by rw [iter_page_size, iter_page_size]; exact hpres.2.2.1)
    (by rw [iter_base, iter_base]; exact hpres.2.2.2)
  exact hcongr

/-- C8: whenever the stop-page test fails (so a fetch is attempted),
the cursor advances by exactly one — for every fetch function, i.e.
independently of whether the fetch raises, returns rows or returns an
empty result — the request of that step is issued at the pre-increment
cursor value with the offset computed from it, and across a whole pull
loop the cursor never decreases. -/
theorem claim_C8_cursor_monotone {α ε ρ : Type}
    (fetch : CallKwargs α → Except ε (List ρ)) (fuel : Nat)
    (s t : IterState α)
    (ht : stopExceeded t.page t.stop_page = false) :
    (next fetch t).state.page = t.page + 1 ∧
    (next fetch t).request = some (t.page, injKwargs t) ∧
    (injKwargs t).offset = some (t.page * t.page_size) ∧
    s.page ≤ (run fetch fuel s).final.page := by
  refine ⟨?_, ?_, rfl, run_final_page_mono fetch fuel s⟩
  · cases hf : fetch (injKwargs t) with
    | error e => rw [next_error ht hf]; rfl
    | ok res =>
      cases res with
      | nil => rw [next_empty ht hf]; rfl
      | cons r rs => rw [next_yield ht hf (by simp)]; rfl
  · cases hf : fetch (injKwargs t) with
    | error e => rw [next_error ht hf]
    | ok res =>
      cases res with
      | nil => rw [next_empty ht hf]
      | cons r rs => rw [next_yield ht hf (by simp)]

/-- Witness for C8: at a state with cursor 0 and unbounded stop page,
a step against a one-row fetch function advances the cursor to 1. -/
theorem claim_C8_cursor_monotone_witness :
    stopExceeded (init 1 0 none (⟨(), none, none, none⟩ : CallKwargs Unit)).page
      (init 1 0 none (⟨(), none, none, none⟩ : CallKwargs Unit)).stop_page = false ∧
    ((next (fun _ => Except.ok [()] : CallKwargs Unit → Except Unit (List Unit))
        (init 1 0 none ⟨(), none, none, none⟩)).state.page =
      (init 1 0 none (⟨(), none, none, none⟩ : CallKwargs Unit)).page + 1 ∧
    (next (fun _ => Except.ok [()] : CallKwargs Unit → Except Unit (List Unit))
        (init 1 0 none ⟨(), none, none, none⟩)).request =
      some ((init 1 0 none (⟨(), none, none, none⟩ : CallKwargs Unit)).page,
        injKwargs (init 1 0 none ⟨(), none, none, none⟩)) ∧
    (injKwargs (init 1 0 none (⟨(), none, none, none⟩ : CallKwargs Unit))).offset =
      some ((init 1 0 none (⟨(), none, none, none⟩ : CallKwargs Unit)).page *
        (init 1 0 none (⟨(), none, none, none⟩ : CallKwargs Unit)).page_size) ∧
    (init 1 0 none (⟨(), none, none, none⟩ : CallKwargs Unit)).page ≤
      (run (fun _ => Except.ok [()] : CallKwargs Unit → Except Unit (List Unit)) 3
        (init 1 0 none ⟨(), none, none, none⟩)).final.page) :=
  ⟨by decide,
    claim_C8_cursor_monotone
      (fun _ => Except.ok [()] : CallKwargs Unit → Except Unit (List Unit)) 3
      (init 1 0 none ⟨(), none, none, none⟩)
      (init 1 0 none ⟨(), none, none, none⟩) (by decide)⟩

/-- C9: a step whose cursor exceeds the stop page terminates the pass
normally — `StopIteration`, not an error — with no fetch request and
the state untouched; and over an entire pass no fetch request is ever
issued at a cursor value exceeding the stop page. -/
theorem claim_C9_stop_page_no_fetch {α ε ρ : Type}
    (fetch : CallKwargs α → Except ε (List ρ)) (fuel : Nat)
    (s t : IterState α) (p : Int) (kw : CallKwargs α)
    (ht : stopExceeded t.page t.stop_page = true)
    (hmem : (p, kw) ∈ (iterate fetch fuel s).requests) :
    next fetch t = ⟨t, none, StepResult.stop⟩ ∧
    stopExceeded p s.stop_page = false := by
  refine ⟨next_stop ht, ?_⟩
  have h := run_requests_spec fetch fuel (iter s) p kw hmem
  exact h.2.2.2.2

/-- Witness for C9: a cursor at page 3 with stop page 2 stops without
a request, and in a pass with stop page 1 the request at page 0 was
issued below the bound. -/
theorem claim_C9_stop_page_no_fetch_witness :
    stopExceeded (init 1 3 (some 2) (⟨(), none, none, none⟩ : CallKwargs Unit)).page
      (init 1 3 (some 2) (⟨(), none, none, none⟩ : CallKwargs Unit)).stop_page = true ∧
    ((0 : Int), (⟨(), some 0, some 1, some false⟩ : CallKwargs Unit)) ∈
      (iterate (fun _ => Except.ok [()] : CallKwargs Unit → Except Unit (List Unit))
        5 (init 1 0 (some 1) ⟨(), none, none, none⟩)).requests ∧
    (next (fun _ => Except.ok [()] : CallKwargs Unit → Except Unit (List Unit))
        (init 1 3 (some 2) ⟨(), none, none, none⟩) =
      ⟨init 1 3 (some 2) ⟨(), none, none, none⟩, none, StepResult.stop⟩ ∧
    stopExceeded 0
      (init 1 0 (some 1) (⟨(), none, none, none⟩ : CallKwargs Unit)).stop_page = false) :=
  ⟨by decide, by decide,
    claim_C9_stop_page_no_fetch
      (fun _ => Except.ok [()] : CallKwargs Unit → Except Unit (List Unit)) 5
      (init 1 0 (some 1) ⟨(), none, none, none⟩)
      (init 1 3 (some 2) ⟨(), none, none, none⟩)
      0 ⟨(), some 0, some 1, some false⟩ (by decide) (by decide)⟩

/-- C3: a step whose fetch returns zero rows ends the pass with the
end-of-sequence signal (`StopIteration`) rather than yielding, and
consequently no pass ever yields an empty page to the consumer. -/
theorem claim_C3_empty_page_terminates {α ε ρ : Type}
    (fetch : CallKwargs α → Except ε (List ρ)) (fuel : Nat)
    (s t : IterState α) (rows : List ρ)
    (ht : stopExceeded t.page t.stop_page = false)
    (hf : fetch (injKwargs t) = Except.ok [])
    (hmem : rows ∈ (iterate fetch fuel s).yields) :
    (next fetch t).result = StepResult.stop ∧ rows ≠ [] := by
  refine ⟨?_, run_yields_nonempty fetch fuel (iter s) rows hmem⟩
  rw [next_empty ht hf]

/-- Witness for C3: against a fetch function that is empty from offset
2 on, the step at cursor 2 stops, and the page `[()]` yielded by the
pass is nonempty. -/
theorem claim_C3_empty_page_terminates_witness :
    stopExceeded (⟨2, 0, none, 1, ⟨(), none, none, none⟩⟩ : IterState Unit).page
      (⟨2, 0, none, 1, ⟨(), none, none, none⟩⟩ : IterState Unit).stop_page = false ∧
    (fun kw2 => if (2 : Int) ≤ kw2.offset.getD 0 then Except.ok []
        else Except.ok [()] : CallKwargs Unit → Except Unit (List Unit))
      (injKwargs (⟨2, 0, none, 1, ⟨(), none, none, none⟩⟩ : IterState Unit)) =
      Except.ok [] ∧
    ([()] : List Unit) ∈
      (iterate (fun kw2 => if (2 : Int) ≤ kw2.offset.getD 0 then Except.ok []
          else Except.ok [()] : CallKwargs Unit → Except Unit (List Unit)) 5
        (init 1 0 none ⟨(), none, none, none⟩)).yields ∧
    ((next (fun kw2 => if (2 : Int) ≤ kw2.offset.getD 0 then Except.ok []
          else Except.ok [()] : CallKwargs Unit → Except Unit (List Unit))
        (⟨2, 0, none, 1, ⟨(), none, none, none⟩⟩ : IterState Unit)).result =
        StepResult.stop ∧
      ([()] : List Unit) ≠ []) :=
  ⟨by decide, by rfl, by decide,
    claim_C3_empty_page_terminates
      (fun kw2 => if (2 : Int) ≤ kw2.offset.getD 0 then Except.ok []
        else Except.ok [()] : CallKwargs Unit → Except Unit (List Unit)) 5
      (init 1 0 none ⟨(), none, none, none⟩)
      ⟨2, 0, none, 1, ⟨(), none, none, none⟩⟩
      [()] (by decide) (by rfl) (by decide)⟩

/-- C2: for page size `P > 0`, start page `S ≥ 0` and stop page
`T ≥ S`, a pass yields at most `T - S + 1` pages; if the fetch
function returns at most `limit` rows per call, every yielded page has
at most `P` rows; and against a fetch function that always returns one
row, the pass yields exactly `T - S + 1` pages, so the page whose
index equals the stop page is still produced. -/
theorem claim_C2_page_count_bounds {α ε ρ : Type}
    (fetch : CallKwargs α → Except ε (List ρ)) (fuel : Nat)
    (P S T : Int) (kw : CallKwargs α) (r : ρ)
    (hP : 0 < P) (_hS : 0 ≤ S) (hT : S ≤ T) :
    (iterate fetch fuel (init P S (some T) kw)).yields.length
        ≤ (T - S + 1).toNat ∧
    ((∀ kw2 res, fetch kw2 = Except.ok res →
        (res.length : Int) ≤ kw2.limit.getD 0) →
      ∀ rows, rows ∈ (iterate fetch fuel (init P S (some T) kw)).yields →
        (rows.length : Int) ≤ P) ∧
    (iterate (fun _ => Except.ok [r] : CallKwargs α → Except ε (List ρ))
        ((T - S + 1).toNat + 1) (init P S (some T) kw)).yields.length
      = (T - S + 1).toNat := by
  have hpage : (iter (init P S (some T) kw)).page = S := rfl
  have hstop : (iter (init P S (some T) kw)).stop_page = some T := rfl
  have hps : (iter (init P S (some T) kw)).page_size = P := by
    simp [iter, init, ne_of_gt hP]
  refine ⟨?_, ?_, ?_⟩
  · have h := run_yields_length_le fetch fuel (iter (init P S (some T) kw))
      T hstop
    rw [hpage] at h
    have heq : (T + 1 - S).toNat = (T - S + 1).toNat := by omega
    rw [heq] at h
    exact h
  · intro hfetch rows hmem
    have h := run_yields_row_bound fetch fuel (iter (init P S (some T) kw))
      hfetch rows hmem
    rw [hps] at h
    exact h
  · have h := @run_yields_length_exact α ε ρ r
      ((T - S + 1).toNat + 1) (iter (init P S (some T) kw)) T hstop
      (by rw [hpage]; omega)
      (by rw [hpage]; omega)
    rw [hpage] at h
    have heq : (T + 1 - S).toNat = (T - S + 1).toNat := by omega
    rw [heq] at h
    exact h

/-- Witness for C2: page size 2, start page 0, stop page 1 — at most
2 pages, each of at most 2 rows under the limit-honouring hypothesis,
and exactly 2 pages against a one-row fetch function. -/
theorem claim_C2_page_count_bounds_witness :
    (0 : Int) < 2 ∧ (0 : Int) ≤ 0 ∧ (0 : Int) ≤ 1 ∧
    ((iterate (fun _ => Except.ok [()] : CallKwargs Unit → Except Unit (List Unit))
        5 (init 2 0 (some 1) ⟨(), none, none, none⟩)).yields.length
          ≤ ((1 : Int) - 0 + 1).toNat ∧
      ((∀ kw2 res,
          (fun _ => Except.ok [()] : CallKwargs Unit → Except Unit (List Unit)) kw2
            = Except.ok res → (res.length : Int) ≤ kw2.limit.getD 0) →
        ∀ rows, rows ∈
          (iterate (fun _ => Except.ok [()] : CallKwargs Unit → Except Unit (List Unit))
            5 (init 2 0 (some 1) ⟨(), none, none, none⟩)).yields →
          (rows.length : Int) ≤ 2) ∧
      (iterate (fun _ => Except.ok [()] : CallKwargs Unit → Except Unit (List Unit))
          (((1 : Int) - 0 + 1).toNat + 1)
          (init 2 0 (some 1) ⟨(), none, none, none⟩)).yields.length
        = ((1 : Int) - 0 + 1).toNat) :=
  ⟨by decide, by decide, by decide,
    claim_C2_page_count_bounds
      (fun _ => Except.ok [()] : CallKwargs Unit → Except Unit (List Unit)) 5
      2 0 1 ⟨(), none, none, none⟩ () (by decide) (by decide) (by decide)⟩

/-- C4: if the fetch raises `e` on any step — that is, at any iterator
state `t` whose bound check passes, wherever in a pass it is reached —
then that step propagates exactly `e` (an error outcome, not a stop or
a yield) with the cursor still advanced; the pass ends at that step
having issued that one request only (no retry), yielding nothing for
it, with terminal error `e` rather than the normal-termination signal;
and any successful nonempty step merely prepends its page to whatever
the rest of the pass produces, leaving the later yields, error and
requests untouched — so pages yielded before a failing step are
unaffected by it. -/
theorem claim_C4_error_propagation {α ε ρ : Type}
    (fetch : CallKwargs α → Except ε (List ρ)) (fuel : Nat)
    (t : IterState α) (e : ε)
    (ht : stopExceeded t.page t.stop_page = false)
    (hf : fetch (injKwargs t) = Except.error e) :
    next fetch t =
      ⟨stepState t, some (t.page, injKwargs t), StepResult.error e⟩ ∧
    run fetch (fuel + 1) t =
      ⟨[(t.page, injKwargs t)], [], some e, stepState t⟩ ∧
    (∀ (s : IterState α) (rows : List ρ) (fuel2 : Nat),
      stopExceeded s.page s.stop_page = false →
      fetch (injKwargs s) = Except.ok rows → rows ≠ [] →
      (run fetch (fuel2 + 1) s).yields =
        rows :: (run fetch fuel2 (stepState s)).yields ∧
      (run fetch (fuel2 + 1) s).err = (run fetch fuel2 (stepState s)).err ∧
      (run fetch (fuel2 + 1) s).requests =
        (s.page, injKwargs s) :: (run fetch fuel2 (stepState s)).requests) := by
  refine ⟨next_error ht hf, ?_, ?_⟩
  · rw [run_succ_error (next_error ht hf)]
    simp
  · intro s rows fuel2 hs hok hne
    rw [run_succ_yield (next_yield hs hok (List.length_pos.mpr hne))]
    simp

/-- Witness for C4: `fetchOkAtZero` raises at `midPassState` (whose
injected offset is 3), so the step and the pass from there propagate
that error, and the prefix-preservation conjunct holds for this fetch
function. -/
theorem claim_C4_error_propagation_witness :
    stopExceeded midPassState.page midPassState.stop_page = false ∧
    fetchOkAtZero (injKwargs midPassState) = Except.error () ∧
    (next fetchOkAtZero midPassState =
      ⟨stepState midPassState,
        some (midPassState.page, injKwargs midPassState),
        StepResult.error ()⟩ ∧
    run fetchOkAtZero (1 + 1) midPassState =
      ⟨[(midPassState.page, injKwargs midPassState)], [], some (),
        stepState midPassState⟩ ∧
    (∀ (s : IterState Unit) (rows : List Unit) (fuel2 : Nat),
      stopExceeded s.page s.stop_page = false →
      fetchOkAtZero (injKwargs s) = Except.ok rows → rows ≠ [] →
      (run fetchOkAtZero (fuel2 + 1) s).yields =
        rows :: (run fetchOkAtZero fuel2 (stepState s)).yields ∧
      (run fetchOkAtZero (fuel2 + 1) s).err =
        (run fetchOkAtZero fuel2 (stepState s)).err ∧
      (run fetchOkAtZero (fuel2 + 1) s).requests =
        (s.page, injKwargs s) ::
          (run fetchOkAtZero fuel2 (stepState s)).requests)) :=
  ⟨by decide, by rfl,
    claim_C4_error_propagation fetchOkAtZero 1 midPassState ()
      (by decide) (by rfl)⟩
